import Mathlib

set_option maxHeartbeats 1000000
set_option maxRecDepth 4000

/-!
Verification development for the crawrels crawler (src/scraper).

URLs are modelled at the character level: a Python `str` is a `List Char`.
The functions `urlsplit`, `urlunsplit` and `urljoin` are embeddings of the
CPython 3.11 `urllib.parse` algorithms that `scraper/utils.py` calls, with
two documented scope restrictions: the IPv6 bracket validation and the
netloc unicode check (which raise in CPython) are omitted, and the
path/params pair of `urlparse` is folded into a single path component
(`urlunparse` reassembles `path;params` verbatim, so the fold is exact for
every URL whose relative resolution does not mix `;` parameters with `.`
or `..` segments).
-/

namespace Crawrels

/-- Python strings are modelled as lists of characters. -/
abbrev Str := List Char

namespace Url

/-- Bytes removed everywhere by urlsplit (tab, CR, LF). -/
def badByte (c : Char) : Bool := c == '\t' || c == '\r' || c == '\n'

/-- Membership in the WHATWG C0-control-or-space set stripped by urlsplit. -/
def isC0OrSpace (c : Char) : Bool := decide (c.toNat ≤ 32)

/-- Left strip of C0 controls and spaces, as urlsplit applies to the url. -/
def lstripC0 (s : Str) : Str := s.dropWhile isC0OrSpace

/-- Two sided strip of C0 controls and spaces, applied to the scheme default. -/
def stripC0 (s : Str) : Str := ((s.dropWhile isC0OrSpace).reverse.dropWhile isC0OrSpace).reverse

/-- Removal of tab, CR and LF everywhere in the string. -/
def scrub (s : Str) : Str := s.filter (fun c => !(badByte c))

def isAsciiUpper (c : Char) : Bool := decide (65 ≤ c.toNat ∧ c.toNat ≤ 90)

def isAsciiLowerCh (c : Char) : Bool := decide (97 ≤ c.toNat ∧ c.toNat ≤ 122)

def isAsciiAlpha (c : Char) : Bool := isAsciiUpper c || isAsciiLowerCh c

def isAsciiDigit (c : Char) : Bool := decide (48 ≤ c.toNat ∧ c.toNat ≤ 57)

/-- Characters allowed in a URL scheme (the scheme_chars of urllib.parse). -/
def schemeChar (c : Char) : Bool :=
  isAsciiAlpha c || isAsciiDigit c || c == '+' || c == '-' || c == '.'

/-- ASCII lower casing of one character (str.lower on scheme characters). -/
def lowerCh (c : Char) : Char := if isAsciiUpper c then Char.ofNat (c.toNat + 32) else c

def lowerStr (s : Str) : Str := s.map lowerCh

/-- Split at the first occurrence of a character; none when absent. -/
def splitFirst (c : Char) : Str → Option (Str × Str)
  | [] => none
  | x :: xs =>
    if x == c then some ([], xs)
    else
      match splitFirst c xs with
      | none => none
      | some (a, b) => some (x :: a, b)

/-- Scheme detection of urlsplit: the text before the first colon is taken as
the scheme when it is nonempty, starts with an ASCII letter and consists of
scheme characters only; it is lower cased. -/
def schemeSplit (url : Str) : Option (Str × Str) :=
  match splitFirst ':' url with
  | none => none
  | some (a, b) =>
    match a with
    | [] => none
    | c0 :: _ => if isAsciiAlpha c0 && a.all schemeChar then some (lowerStr a, b) else none

/-- The netloc is everything after the leading // up to the first /, ? or #. -/
def netlocDelim (c : Char) : Bool := c == '/' || c == '?' || c == '#'

def splitNetloc (s : Str) : Str × Str :=
  (s.takeWhile (fun c => !(netlocDelim c)), s.dropWhile (fun c => !(netlocDelim c)))

structure SplitResult where
  scheme : Str
  netloc : Str
  path : Str
  query : Str
  fragment : Str
deriving DecidableEq, Repr

/-- The fragment split of urlsplit: url.split(hash, 1) when a hash is
present, otherwise no fragment. -/
def splitFragment (s : Str) : Str × Str :=
  match splitFirst '#' s with
  | some (a, b) => (a, b)
  | none => (s, [])

/-- The query split of urlsplit: url.split(question mark, 1) when present. -/
def splitQuery (s : Str) : Str × Str :=
  match splitFirst '?' s with
  | some (a, b) => (a, b)
  | none => (s, [])

/-- Embedding of urllib.parse.urlsplit (allow_fragments=True), CPython 3.11.
The dscheme argument is the scheme default used by urljoin. -/
def urlsplit (url0 : Str) (dscheme0 : Str) : SplitResult :=
  let url1 := scrub (lstripC0 url0)
  let dscheme := scrub (stripC0 dscheme0)
  let p1 :=
    match schemeSplit url1 with
    | some (s, r) => (s, r)
    | none => (dscheme, url1)
  let p2 :=
    if p1.2.take 2 = ['/', '/'] then splitNetloc (p1.2.drop 2)
    else ([], p1.2)
  let p3 := splitFragment p2.2
  let p4 := splitQuery p3.1
  ⟨p1.1, p2.1, p4.1, p4.2, p3.2⟩

def usesRelative : List Str :=
  ["", "ftp", "http", "gopher", "nntp", "imap", "wais", "file", "https", "shttp",
   "mms", "prospero", "rtsp", "rtsps", "rtspu", "sftp", "svn", "svn+ssh", "ws", "wss"].map String.data

def usesNetloc : List Str :=
  ["", "ftp", "http", "gopher", "nntp", "telnet", "imap", "wais", "file", "mms",
   "https", "shttp", "snews", "prospero", "rtsp", "rtsps", "rtspu", "rsync", "svn",
   "svn+ssh", "sftp", "nfs", "git", "git+ssh", "ws", "wss"].map String.data

/-- Embedding of urllib.parse.urlunsplit, CPython 3.11. -/
def urlunsplit (r : SplitResult) : Str :=
  let url := r.path
  let url :=
    if r.netloc ≠ [] ∨ (r.scheme ≠ [] ∧ r.scheme ∈ usesNetloc ∧ url.take 2 ≠ ['/', '/']) then
      let url := if url ≠ [] ∧ url.take 1 ≠ ['/'] then '/' :: url else url
      ['/', '/'] ++ r.netloc ++ url
    else url
  let url := if r.scheme ≠ [] then r.scheme ++ ':' :: url else url
  let url := if r.query ≠ [] then url ++ '?' :: r.query else url
  if r.fragment ≠ [] then url ++ '#' :: r.fragment else url

/-- Split on a character in the manner of Python str.split: the result is
always nonempty and splitting the empty string gives one empty piece. -/
def splitChar (c : Char) : Str → List Str
  | [] => [[]]
  | x :: xs =>
    match splitChar c xs with
    | [] => [[x]]
    | h :: t => if x == c then [] :: h :: t else (x :: h) :: t

/-- The slice assignment segments[1:-1] = filter(None, segments[1:-1]) of
urljoin: drop empty pieces except in first and last position. -/
def midFilter : List Str → List Str
  | [] => []
  | [x] => [x]
  | x :: xs => if x = [] then midFilter xs else x :: midFilter xs

def keepEndsFiltered : List Str → List Str
  | [] => []
  | x :: xs => x :: midFilter xs

/-- Dot segment resolution of urljoin; acc holds the resolved path reversed,
so the pop of a .. segment is a tail (ignored when the stack is empty). -/
def resolveSegs (acc : List Str) : List Str → List Str
  | [] => acc.reverse
  | seg :: rest =>
    if seg = ['.', '.'] then resolveSegs (acc.drop 1) rest
    else if seg = ['.'] then resolveSegs acc rest
    else resolveSegs (seg :: acc) rest

/-- Embedding of urllib.parse.urljoin, CPython 3.11 (params folded into the
path as documented in the file header). -/
def urljoin (base url : Str) : Str :=
  if base = [] then url
  else if url = [] then base
  else
    let b := urlsplit base []
    let s := urlsplit url b.scheme
    if s.scheme ≠ b.scheme ∨ s.scheme ∉ usesRelative then url
    else if s.scheme ∈ usesNetloc ∧ s.netloc ≠ [] then urlunsplit s
    else
      let netloc := if s.scheme ∈ usesNetloc then b.netloc else s.netloc
      if s.path = [] then
        let q := if s.query = [] then b.query else s.query
        urlunsplit ⟨s.scheme, netloc, b.path, q, s.fragment⟩
      else
        let baseParts0 := splitChar '/' b.path
        let baseParts := if baseParts0.getLast? = some [] then baseParts0 else baseParts0.dropLast
        let segments :=
          if s.path.take 1 = ['/'] then splitChar '/' s.path
          else keepEndsFiltered (baseParts ++ splitChar '/' s.path)
        let resolved0 := resolveSegs [] segments
        let resolved :=
          if segments.getLast? = some ['.'] ∨ segments.getLast? = some ['.', '.'] then
            resolved0 ++ [[]]
          else resolved0
        let newPath := List.intercalate ['/'] resolved
        urlunsplit ⟨s.scheme, netloc, if newPath = [] then ['/'] else newPath, s.query, s.fragment⟩

end Url

/-- Whitespace stripped by Python str.strip (ASCII whitespace; the unicode
space code points do not occur in the URLs this development reasons about). -/
def isPyWs (c : Char) : Bool :=
  c == ' ' || c == '\t' || c == '\n' || c == '\r' || c == '\x0b' || c == '\x0c'

/-- Embedding of Python str.strip(). -/
def pyStrip (s : Str) : Str :=
  ((s.dropWhile isPyWs).reverse.dropWhile isPyWs).reverse

/-- Boolean test that the second list starts with the first. -/
def startsW : Str → Str → Bool
  | [], _ => true
  | _ :: _, [] => false
  | p :: ps, x :: xs => p == x && startsW ps xs

/-- Embedding of str.rstrip applied with a slash argument. -/
def rstripSlash (s : Str) : Str := (s.reverse.dropWhile (· == '/')).reverse

/-- Embedding of utils.normalize_url from src/scraper/utils.py. -/
def normalize_url (base href0 : Str) : Option Str :=
  if href0 = [] then none
  else
    let href := pyStrip href0
    if startsW "mailto:".data href || startsW "javascript:".data href then none
    else
      let joined := Url.urljoin base href
      let parsed := Url.urlsplit joined []
      if parsed.scheme ≠ "http".data ∧ parsed.scheme ≠ "https".data then none
      else
        let clean : Url.SplitResult := { parsed with fragment := [] }
        let normalized := Url.urlunsplit clean
        some (if clean.path ≠ ['/'] then rstripSlash normalized else normalized)

example : normalize_url "https://example.com/path/index.html".data "../docs/file.pdf#section".data
    = some "https://example.com/docs/file.pdf".data := by decide

example : normalize_url "https://example.com".data "mailto:test@example.com".data = none := by
  decide

example : normalize_url "http://e.com".data "a".data = some "http://e.com/a".data := by decide

example : normalize_url "https://x".data "http://a/b?/".data = some "http://a/b?".data := by
  decide

example : normalize_url "http://a/b?".data "http://a/b?".data = some "http://a/b".data := by
  decide

example : normalize_url "http://e.com/a".data "http://e.com/a".data
    = some "http://e.com/a".data := by decide

example : normalize_url "http://e.com".data "".data = none := by decide

/-! ## Crawl state (src/scraper/state.py)

The snapshot format is JSON; `json.dumps` followed by `json.loads` is the
identity on the value level (Python tuples are written as JSON arrays, which
`CrawlState.load` turns back into tuples), so a snapshot file is modelled by
its parsed JSON value, plus two constructors for the corrupt-file cases that
`CrawlState.load` distinguishes before parsing. Dictionaries are modelled as
insertion-ordered association lists, which is how Python dicts behave. -/

inductive Json where
  | null
  | bool (b : Bool)
  | num (n : Int)
  | str (s : String)
  | arr (xs : List Json)
  | obj (kvs : List (String × Json))

/-- Python truthiness of a JSON value (None, False, 0, empty string, empty
list and empty dict are falsy). -/
def Json.truthy : Json → Bool
  | .null => false
  | .bool b => b
  | .num n => n != 0
  | .str s => !s.isEmpty
  | .arr xs => !xs.isEmpty
  | .obj kvs => !kvs.isEmpty

/-- Test for the JSON null value (Python is None on a fetched field). -/
def Json.isNull : Json → Bool
  | .null => true
  | _ => false

/-- Python payload.get(k): None when the key is absent. -/
def jget (kvs : List (String × Json)) (k : String) : Json :=
  (kvs.lookup k).getD .null

/-- Python payload.get(k, d) with an explicit default. -/
def jgetD (kvs : List (String × Json)) (k : String) (d : Json) : Json :=
  match kvs.lookup k with
  | some v => v
  | none => d

/-- Python containment test k in payload. -/
def jhas (kvs : List (String × Json)) (k : String) : Bool :=
  (kvs.lookup k).isSome

structure PageRecord where
  url : String
  depth : Int
  title : Option String
  assets : List (List (String × String))
  errors : List String
  referrers : List String
  last_status : Option String
deriving DecidableEq, Repr

/-- Encoding of an optional string field (None becomes JSON null). -/
def jopt : Option String → Json
  | none => .null
  | some s => .str s

def encStrDict (d : List (String × String)) : Json :=
  .obj (d.map fun kv => (kv.1, .str kv.2))

def encAssets (xs : List (List (String × String))) : Json :=
  .arr (xs.map encStrDict)

/-- Embedding of PageRecord.to_dict: note the legacy pdfs alias is written
next to assets with the same value. -/
def PageRecord.to_dict (p : PageRecord) : Json :=
  .obj
    [("url", .str p.url),
     ("depth", .num p.depth),
     ("title", jopt p.title),
     ("assets", encAssets p.assets),
     ("pdfs", encAssets p.assets),
     ("errors", .arr (p.errors.map .str)),
     ("referrers", .arr (p.referrers.map .str)),
     ("last_status", jopt p.last_status)]

/-- Errors of the typed decode. Python reaches the same states dynamically
(KeyError on a missing required key, TypeError or ValueError on values of the
wrong shape); the typed rendering surfaces them as decode errors. -/
inductive LoadErr where
  | emptyFile
  | invalidJson
  | badPayload (msg : String)
deriving DecidableEq, Repr

/-- Effectful map over a list in the Except monad (the decode direction of
the Python comprehensions in CrawlState.load). -/
def exMapM (f : α → Except LoadErr β) : List α → Except LoadErr (List β)
  | [] => .ok []
  | x :: xs => do
    let y ← f x
    let ys ← exMapM f xs
    pure (y :: ys)

def decStr : Json → Except LoadErr String
  | .str s => .ok s
  | _ => .error (.badPayload "expected string")

def decOptStr : Json → Except LoadErr (Option String)
  | .null => .ok none
  | .str s => .ok (some s)
  | _ => .error (.badPayload "expected string or null")

def decList (f : Json → Except LoadErr α) : Json → Except LoadErr (List α)
  | .arr xs => exMapM f xs
  | _ => .error (.badPayload "expected list")

def decStrList : Json → Except LoadErr (List String) :=
  decList decStr

def decStrPair (kv : String × Json) : Except LoadErr (String × String) :=
  match kv.2 with
  | .str v => .ok (kv.1, v)
  | _ => .error (.badPayload "expected string value")

def decStrDict : Json → Except LoadErr (List (String × String))
  | .obj kvs => exMapM decStrPair kvs
  | _ => .error (.badPayload "expected dict of strings")

/-- A frontier item: tuple(item) over a saved [url, depth] pair. -/
def decFrontierItem : Json → Except LoadErr (String × Int)
  | .arr [.str u, .num d] => .ok (u, d)
  | _ => .error (.badPayload "expected frontier pair")

def decInt : Json → Except LoadErr Int
  | .num n => .ok n
  | _ => .error (.badPayload "expected int")

def decBool : Json → Except LoadErr Bool
  | .bool b => .ok b
  | _ => .error (.badPayload "expected bool")

/-- Embedding of PageRecord.from_dict, including the pdfs and parents
legacy aliases and the or-chains on falsy values. -/
def PageRecord.from_dict (j : Json) : Except LoadErr PageRecord := do
  match j with
  | .obj kvs =>
    let url ← decStr (jget kvs "url")
    let assets0 := jget kvs "assets"
    let assets1 := if assets0.isNull && jhas kvs "pdfs" then jget kvs "pdfs" else assets0
    let assets2 := if assets1.truthy then assets1 else .arr []
    let assets ← decList decStrDict assets2
    let refs0 := jget kvs "referrers"
    let refs1 := if refs0.truthy then refs0 else jget kvs "parents"
    let refs2 := if refs1.truthy then refs1 else .arr []
    let referrers ← decStrList refs2
    let depth ← decInt (jgetD kvs "depth" (.num 0))
    let title ← decOptStr (jget kvs "title")
    let errors ← decStrList (jgetD kvs "errors" (.arr []))
    let last_status ← decOptStr (jget kvs "last_status")
    pure { url := url, depth := depth, title := title, assets := assets,
           errors := errors, referrers := referrers, last_status := last_status }
  | _ => .error (.badPayload "expected page dict")

structure CrawlState where
  start_url : String
  max_depth : Int
  respect_robots : Bool
  same_domain_only : Bool
  include_patterns : List String
  exclude_patterns : List String
  target_extensions : List String
  frontier : List (String × Int)
  visited : List String
  asset_cache : List (String × List (String × String))
  pages : List (String × PageRecord)
  skipped : List (String × String)
  started_at : Option String
  finished_at : Option String
  referrers : List (String × List String)
  asset_manifest : List (String × Json)

def encCache (c : List (String × List (String × String))) : Json :=
  .obj (c.map fun kv => (kv.1, encStrDict kv.2))

/-- Embedding of CrawlState.to_dict: the asset cache is written twice (under
the legacy pdf_cache alias too), the visited set as a list, frontier tuples
as arrays. -/
def CrawlState.to_dict (s : CrawlState) : Json :=
  .obj
    [("start_url", .str s.start_url),
     ("max_depth", .num s.max_depth),
     ("respect_robots", .bool s.respect_robots),
     ("same_domain_only", .bool s.same_domain_only),
     ("include_patterns", .arr (s.include_patterns.map .str)),
     ("exclude_patterns", .arr (s.exclude_patterns.map .str)),
     ("target_extensions", .arr (s.target_extensions.map .str)),
     ("frontier", .arr (s.frontier.map fun p => .arr [.str p.1, .num p.2])),
     ("visited", .arr (s.visited.map .str)),
     ("asset_cache", encCache s.asset_cache),
     ("pdf_cache", encCache s.asset_cache),
     ("pages", .obj (s.pages.map fun kv => (kv.1, kv.2.to_dict))),
     ("skipped", .arr (s.skipped.map fun p => .obj [("url", .str p.1), ("reason", .str p.2)])),
     ("started_at", jopt s.started_at),
     ("finished_at", jopt s.finished_at),
     ("referrers", .obj (s.referrers.map fun kv => (kv.1, .arr (kv.2.map .str)))),
     ("asset_manifest", .obj s.asset_manifest)]

/-- A snapshot file as CrawlState.load sees it: blank (only whitespace, the
explicit raw.strip() check), unparseable (json.loads raises), or a parsed
JSON value. -/
inductive ParsedFile where
  | blank
  | badJson
  | content (j : Json)

def decCacheEntry (kv : String × Json) : Except LoadErr (String × List (String × String)) := do
  pure (kv.1, ← decStrDict kv.2)

def decPageEntry (kv : String × Json) : Except LoadErr (String × PageRecord) := do
  pure (kv.1, ← PageRecord.from_dict kv.2)

def decRefEntry (kv : String × Json) : Except LoadErr (String × List String) := do
  pure (kv.1, ← decStrList kv.2)

def decSkipEntry : Json → Except LoadErr (String × String)
  | .obj [("url", .str u), ("reason", .str r)] => .ok (u, r)
  | _ => .error (.badPayload "expected skip entry")

/-- Python set(list): deduplicate (set iteration order is arbitrary in
Python, so keeping first occurrences is a faithful choice; the resume
contract only speaks about the visited SET). -/
def pySet : List String → List String
  | [] => []
  | x :: xs => x :: (pySet xs).filter (fun y => y ≠ x)

/-- Embedding of CrawlState.load. An empty file and invalid JSON raise
ValueError (state corruption) before any field is read; the two legacy or
chains (pdf_cache for asset_cache, missing keys defaulting) follow the
source. -/
def CrawlState.load (f : ParsedFile) : Except LoadErr CrawlState := do
  match f with
  | .blank => .error .emptyFile
  | .badJson => .error .invalidJson
  | .content j =>
    match j with
    | .obj payload =>
      let pagesJ := jgetD payload "pages" (.obj [])
      let pages ← match pagesJ with
        | .obj kvs => exMapM decPageEntry kvs
        | _ => .error (.badPayload "expected pages dict")
      let cache0 := jget payload "asset_cache"
      let cache1 := if cache0.truthy then cache0 else jget payload "pdf_cache"
      let cache2 := if cache1.truthy then cache1 else .obj []
      let asset_cache ← match cache2 with
        | .obj kvs => exMapM decCacheEntry kvs
        | _ => .error (.badPayload "expected cache dict")
      let start_url ← decStr (jget payload "start_url")
      let max_depth ← decInt (jget payload "max_depth")
      let respect_robots ← decBool (jgetD payload "respect_robots" (.bool true))
      let same_domain_only ← decBool (jgetD payload "same_domain_only" (.bool true))
      let include_patterns ← decStrList (jgetD payload "include_patterns" (.arr []))
      let exclude_patterns ← decStrList (jgetD payload "exclude_patterns" (.arr []))
      let target_extensions ← decStrList (jgetD payload "target_extensions" (.arr []))
      let frontier ← decList decFrontierItem (jgetD payload "frontier" (.arr []))
      let visitedList ← decStrList (jgetD payload "visited" (.arr []))
      let skipped ← decList decSkipEntry (jgetD payload "skipped" (.arr []))
      let started_at ← decOptStr (jget payload "started_at")
      let finished_at ← decOptStr (jget payload "finished_at")
      let refs0 := jget payload "referrers"
      let refs1 := if refs0.truthy then refs0 else .obj []
      let referrers ← match refs1 with
        | .obj kvs => exMapM decRefEntry kvs
        | _ => .error (.badPayload "expected referrer dict")
      let asset_manifest ← match jgetD payload "asset_manifest" (.obj []) with
        | .obj kvs => .ok kvs
        | _ => .error (.badPayload "expected manifest dict")
      pure { start_url := start_url, max_depth := max_depth,
             respect_robots := respect_robots, same_domain_only := same_domain_only,
             include_patterns := include_patterns, exclude_patterns := exclude_patterns,
             target_extensions := target_extensions, frontier := frontier,
             visited := pySet visitedList, asset_cache := asset_cache, pages := pages,
             skipped := skipped, started_at := started_at, finished_at := finished_at,
             referrers := referrers, asset_manifest := asset_manifest }
    | _ => .error (.badPayload "expected top level dict")

/-- Embedding of CrawlState.enqueue: an unconditional append to the deque. -/
def CrawlState.enqueue (s : CrawlState) (url : String) (depth : Int) : CrawlState :=
  { s with frontier := s.frontier ++ [(url, depth)] }

/-- Update or append in an insertion-ordered dict. -/
def updAssoc (m : List (String × α)) (k : String) (v : α) : List (String × α) :=
  if m.any (fun kv => kv.1 == k) then
    m.map fun kv => if kv.1 == k then (k, v) else kv
  else m ++ [(k, v)]

/-- Dedup-append of each referrer into the current list, checking against the
growing list exactly as the for loop in CrawlState.page does. -/
def backfill (refs : List String) (cur : List String) : List String :=
  match refs with
  | [] => cur
  | r :: rest => backfill rest (if r ∈ cur then cur else cur ++ [r])

/-- Embedding of CrawlState.page (get_or_create_page of the spec): keeps the
minimum depth on an existing record and backfills the referrer graph. -/
def CrawlState.page (s : CrawlState) (url : String) (depth : Int) : PageRecord × CrawlState :=
  match s.pages.lookup url with
  | none =>
    let r : PageRecord :=
      { url := url, depth := depth, title := none, assets := [], errors := [],
        referrers := backfill ((s.referrers.lookup url).getD []) [], last_status := none }
    (r, { s with pages := updAssoc s.pages url r })
  | some r0 =>
    let r :=
      { r0 with depth := min r0.depth depth,
                referrers := backfill ((s.referrers.lookup url).getD []) r0.referrers }
    (r, { s with pages := updAssoc s.pages url r })

/-- Embedding of CrawlState.record_referrer. -/
def CrawlState.record_referrer (s : CrawlState) (url referrer : String) : CrawlState :=
  if referrer = "" then s
  else
    let refs := (s.referrers.lookup url).getD []
    let refs := if referrer ∈ refs then refs else refs ++ [referrer]
    let s := { s with referrers := updAssoc s.referrers url refs }
    match s.pages.lookup url with
    | none => s
    | some p =>
      let p :=
        if referrer ∈ p.referrers then p
        else { p with referrers := p.referrers ++ [referrer] }
      { s with pages := updAssoc s.pages url p }

/-- Embedding of CrawlState.record_skip. -/
def CrawlState.record_skip (s : CrawlState) (url reason : String) : CrawlState :=
  { s with skipped := s.skipped ++ [(url, reason)] }

/-! ## Pattern and extension matching (src/scraper/utils.py)

The re module is external to the repository, so the regular-expression
search is a parameter: reSearch pat val is some b when re.search(pat, val)
ran and its result is truthy, and none when re.compile raised re.error. The
substring fallback of the except branch is concrete. -/

/-- Python substring containment (pattern in value). -/
def containsSub (hay need : Str) : Bool :=
  hay.tails.any fun t => need.isPrefixOf t

/-- Embedding of utils.match_patterns: empty patterns are skipped, a
malformed pattern degrades to a substring check. -/
def match_patterns (reSearch : String → String → Option Bool)
    (value : String) (patterns : List String) : Bool :=
  patterns.any fun pat =>
    if pat = "" then false
    else
      match reSearch pat value with
      | some b => b
      | none => containsSub value.data pat.data

/-- Stable insertion into a list sorted by decreasing length (the
sorted(..., key=len, reverse=True) of match_extension; Python leaves
equal-length elements in set-iteration order, which is arbitrary, so any
stable order among equal lengths is a faithful model). -/
def insByLen (x : Str) : List Str → List Str
  | [] => [x]
  | y :: ys => if y.length < x.length then x :: y :: ys else y :: insByLen x ys

def sortByLenDesc (xs : List Str) : List Str :=
  xs.foldl (fun acc x => insByLen x acc) []

/-- Keep-first deduplication, the model of Python set construction. -/
def pyDedup : List Str → List Str
  | [] => []
  | x :: xs => x :: (pyDedup xs).filter (fun y => y ≠ x)

/-- Embedding of utils.match_extension: longest extension first,
case-insensitive suffix match on the URL path. -/
def match_extension (url : String) (extensions : List String) : Option String :=
  let path := Url.lowerStr (Url.urlsplit url.data []).path
  let normalized := (extensions.filter (fun e => e ≠ "")).map fun e => Url.lowerStr e.data
  let ordered := sortByLenDesc (pyDedup normalized)
  (ordered.find? fun e => e.isSuffixOf path).map fun e => String.mk e

/-! ## Link classification (FileCrawler._extract_links, the consider closure)

consider normalizes the raw href first and returns when normalization
yields nothing; classification of the canonical link is modelled here, with
the external collaborators (re.search, tldextract domain comparison, robots
oracle) as parameters. -/

inductive LinkClass where
  | skip (reason : String)
  | asset (ext : String)
  | page
deriving DecidableEq, Repr

structure LinkPolicy where
  reSearch : String → String → Option Bool
  sameDomain : String → String → Bool
  robotsAllowed : String → Bool
  excludePatterns : List String
  includePatterns : List String
  sameDomainOnly : Bool
  startUrl : String
  targetExts : List String

/-- Embedding of the filter chain of consider (crawler.py lines 296 to 316):
exclude patterns, then include patterns, then domain scope, then robots,
then extension matching. -/
def classifyLink (pol : LinkPolicy) (norm : String) : LinkClass :=
  if match_patterns pol.reSearch norm pol.excludePatterns then .skip "exclude-pattern"
  else if !pol.includePatterns.isEmpty && !(match_patterns pol.reSearch norm pol.includePatterns) then
    .skip "include-miss"
  else if pol.sameDomainOnly && !(pol.sameDomain norm pol.startUrl) then .skip "off-domain"
  else if !(pol.robotsAllowed norm) then .skip "robots"
  else
    match match_extension norm pol.targetExts with
    | some e => .asset e
    | none => .page

/-- The skip-log effect of consider: a skipped link is recorded through
FileCrawler._record_skip, which appends to CrawlState.skipped. -/
def considerSkip (pol : LinkPolicy) (s : CrawlState) (norm : String) : CrawlState :=
  match classifyLink pol norm with
  | .skip r => s.record_skip norm r
  | _ => s

/-! ## Extension preparation and crawler construction (FileCrawler) -/

def pyLowerStr (s : String) : String := String.mk (Url.lowerStr s.data)

def pyStripStr (s : String) : String := String.mk (pyStrip s.data)

def insStrAsc (x : String) : List String → List String
  | [] => [x]
  | y :: ys => if x < y then x :: y :: ys else y :: insStrAsc x ys

def sortStrAsc (xs : List String) : List String :=
  xs.foldl (fun acc x => insStrAsc x acc) []

/-- One loop iteration of FileCrawler._prepare_extensions: skip empties,
lower case then strip, add a leading dot, insert into the set. -/
def prepStep (acc : List String) (ext : String) : List String :=
  if ext = "" then acc
  else
    let cleaned := pyStripStr (pyLowerStr ext)
    if cleaned = "" then acc
    else
      let cleaned := if cleaned.startsWith "." then cleaned else "." ++ cleaned
      if cleaned ∈ acc then acc else acc ++ [cleaned]

/-- The fallback when no extension survived normalization. -/
def defaultIfEmpty (xs : List String) : List String :=
  if xs = [] then [".pdf"] else xs

/-- Embedding of FileCrawler._prepare_extensions: lower case, strip, add a
leading dot, deduplicate; an empty result is replaced by the default .pdf
rather than rejected; the set is returned sorted. -/
def prepare_extensions (raw : List String) : List String :=
  sortStrAsc (defaultIfEmpty (raw.foldl prepStep []))

/-- Embedding of the fresh-state branch of FileCrawler.__init__ (lines 91
to 101): a new CrawlState is built and the start URL enqueued at depth 0,
with no validation of the start URL. -/
def freshState (start_url : String) (max_depth : Int) (respect_robots same_domain_only : Bool)
    (include_patterns exclude_patterns target_extensions : List String) : CrawlState :=
  let s : CrawlState :=
    { start_url := start_url, max_depth := max_depth, respect_robots := respect_robots,
      same_domain_only := same_domain_only, include_patterns := include_patterns,
      exclude_patterns := exclude_patterns, target_extensions := target_extensions,
      frontier := [], visited := [], asset_cache := [], pages := [], skipped := [],
      started_at := none, finished_at := none, referrers := [], asset_manifest := [] }
  s.enqueue start_url 0

/-- Embedding of the resume decision of FileCrawler.__init__ (lines 83 to
102): with resume requested and a snapshot present, a load failure is
caught and the crawler falls back to the fresh state (the cache hydration
of the fresh branch, which does not affect the fallback decision, is not
modelled). -/
def initialState (resume snapshotExists : Bool) (snapshot : ParsedFile)
    (fresh : CrawlState) : CrawlState :=
  if resume && snapshotExists then
    match CrawlState.load snapshot with
    | .ok s => s
    | .error _ => fresh
  else fresh

/-- The crawler-level queue state: the CrawlState plus the _queued_pages
set that FileCrawler maintains next to the frontier. -/
structure CrawlerQueue where
  st : CrawlState
  queued : List String

/-- Embedding of FileCrawler._enqueue_page (lines 343 to 350): the referrer
edge is recorded first, then the enqueue happens only when the URL is in
neither the visited set nor the queued set. -/
def enqueue_page (c : CrawlerQueue) (parent_url url : String) (depth : Int) : CrawlerQueue :=
  let st1 := c.st.record_referrer url parent_url
  if url ∈ st1.visited ∨ url ∈ c.queued then { c with st := st1 }
  else { st := st1.enqueue url depth, queued := c.queued ++ [url] }

/-! ## Robots oracle (src/scraper/robots.py)

The robots policy object returned by RobotFileParser is modelled as its
can_fetch check with the user agent already applied; the network read in
_parser_for is the fetchPolicy parameter, returning none exactly when the
read raised (the except branch that returns None). The functools lru_cache
on _parser_for has maxsize=32 and is keyed by the full url argument; the
cache is modelled most-recent-first. -/

abbrev RPolicy := Str → Bool

abbrev RCache := List (Str × Option RPolicy)

structure RobotsCfg where
  respect : Bool
  fetchPolicy : Str → Option RPolicy

/-- The robots.txt location computed in _parser_for from the scheme and
netloc of the url. -/
def robotsTarget (url : Str) : Str :=
  let p := Url.urlsplit url []
  Url.urljoin (p.scheme ++ "://".data ++ p.netloc) "/robots.txt".data

/-- Embedding of RobotsHandler._parser_for under its lru_cache: the boolean
reports whether a fetch was performed (a cache miss). -/
def policy_for (cfg : RobotsCfg) (cache : RCache) (url : Str) :
    Option RPolicy × RCache × Bool :=
  match cache.lookup url with
  | some v => (v, (url, v) :: cache.filter (fun kv => !(kv.1 == url)), false)
  | none =>
    let v := cfg.fetchPolicy (robotsTarget url)
    (v, ((url, v) :: cache).take 32, true)

/-- Embedding of RobotsHandler.is_allowed: always true when respect is off,
fail open when the policy read failed, otherwise ask the policy. -/
def is_allowed (cfg : RobotsCfg) (cache : RCache) (url : Str) : Bool × RCache :=
  if !cfg.respect then (true, cache)
  else
    let r := policy_for cfg cache url
    match r.1 with
    | none => (true, r.2.1)
    | some pol => (pol url, r.2.1)

/-! ## Asset download scheduling (FileCrawler._schedule_asset_download)

The method runs three separate critical sections: the cache probe (lines
354 to 363), the waiter/in-flight probe that claims a download slot (lines
370 to 378), and the registration of the in-flight future (lines 383 to
384); the pool submission on line 382 happens between the last two,
outside any lock. Each critical section is one atomic step here, and the
steps of concurrently scheduling page workers interleave. The cache-hit
path abstracts _materialize_cached_asset into an immediate reused attach;
the refuted trace starts from an empty cache and never enters it. -/

structure DedupSt where
  pageAssets : List (Nat × String)
  cacheUrls : List String
  inflight : List String
  waiters : List (String × List Nat)
  activeDownloads : Nat
  submitted : List (Nat × String)
deriving DecidableEq, Repr

structure SchedWorker where
  pid : Nat
  assetUrl : String
  pc : Nat
deriving DecidableEq, Repr

/-- One atomic step of a page worker inside _schedule_asset_download; the
program counter walks the critical sections described above. -/
def schedStep (st : DedupSt) (w : SchedWorker) : DedupSt × SchedWorker :=
  match w.pc with
  | 0 =>
    if (w.pid, w.assetUrl) ∈ st.pageAssets then (st, { w with pc := 4 })
    else if w.assetUrl ∈ st.cacheUrls then
      ({ st with pageAssets := st.pageAssets ++ [(w.pid, w.assetUrl)] }, { w with pc := 4 })
    else (st, { w with pc := 1 })
  | 1 =>
    if w.pid ∈ (st.waiters.lookup w.assetUrl).getD [] then (st, { w with pc := 4 })
    else if w.assetUrl ∈ st.inflight then
      ({ st with
          waiters := updAssoc st.waiters w.assetUrl
            (((st.waiters.lookup w.assetUrl).getD []) ++ [w.pid]) },
       { w with pc := 4 })
    else if (w.pid, w.assetUrl) ∈ st.pageAssets then (st, { w with pc := 4 })
    else ({ st with activeDownloads := st.activeDownloads + 1 }, { w with pc := 2 })
  | 2 =>
    ({ st with submitted := st.submitted ++ [(w.pid, w.assetUrl)] }, { w with pc := 3 })
  | 3 =>
    ({ st with
        inflight := if w.assetUrl ∈ st.inflight then st.inflight
                    else st.inflight ++ [w.assetUrl] },
     { w with pc := 4 })
  | _ => (st, w)

/-- Run a schedule: each entry names the worker that performs its next
atomic step. -/
def schedRun (st : DedupSt) (ws : List SchedWorker) : List Nat → DedupSt × List SchedWorker
  | [] => (st, ws)
  | i :: rest =>
    match ws.get? i with
    | none => schedRun st ws rest
    | some w =>
      let p := schedStep st w
      schedRun p.1 (ws.set i p.2) rest

/-! ## Theorems -/

/-- C10: match_patterns ignores empty-string patterns entirely: whatever
the regular-expression semantics reSearch is (even one under which the
empty pattern matches every string), a pattern list whose members are all
empty yields false. -/
theorem c10_match_patterns_ignores_empty (reSearch : String → String → Option Bool)
    (value : String) (patterns : List String) (h : ∀ p ∈ patterns, p = "") :
    match_patterns reSearch value patterns = false := by
  induction patterns with
  | nil => rfl
  | cons p ps ih =>
    have hp : p = "" := h p (List.mem_cons_self p ps)
    have hps : ∀ q ∈ ps, q = "" := fun q hq => h q (List.mem_cons_of_mem p hq)
    simp only [match_patterns, List.any_cons, hp, if_pos rfl, Bool.false_or]
    exact ih hps

theorem c10_witness :
    (∀ p ∈ ["", ""], p = "") ∧
      match_patterns (fun _ _ => some true) "x" ["", ""] = false :=
  ⟨by decide, c10_match_patterns_ignores_empty (fun _ _ => some true) "x" ["", ""] (by decide)⟩

/-- C8: link classification applies exclusion before inclusion: a link that
matches an exclude pattern is recorded in the skip log with reason
exclude-pattern no matter what the include patterns say, and a link that
survives the pattern checks but lies on a different registrable domain
while same-domain-only is enabled is recorded with reason off-domain. -/
theorem c8_exclude_before_include_and_off_domain (pol : LinkPolicy) (s : CrawlState)
    (norm : String) :
    (match_patterns pol.reSearch norm pol.excludePatterns = true →
      classifyLink pol norm = .skip "exclude-pattern" ∧
      (considerSkip pol s norm).skipped = s.skipped ++ [(norm, "exclude-pattern")]) ∧
    (match_patterns pol.reSearch norm pol.excludePatterns = false →
      (pol.includePatterns = [] ∨ match_patterns pol.reSearch norm pol.includePatterns = true) →
      pol.sameDomainOnly = true →
      pol.sameDomain norm pol.startUrl = false →
      classifyLink pol norm = .skip "off-domain" ∧
      (considerSkip pol s norm).skipped = s.skipped ++ [(norm, "off-domain")]) := by
  constructor
  · intro hex
    constructor
    · simp [classifyLink, hex]
    · simp [considerSkip, classifyLink, hex, CrawlState.record_skip]
  · intro hex hinc hdom hsd
    have hclass : classifyLink pol norm = .skip "off-domain" := by
      rcases hinc with hinc | hinc
      · simp [classifyLink, hex, hinc, hdom, hsd]
      · simp [classifyLink, hex, hinc, hdom, hsd]
    exact ⟨hclass, by simp [considerSkip, hclass, CrawlState.record_skip]⟩

def c8Policy : LinkPolicy :=
  { reSearch := fun pat val => some (containsSub val.data pat.data),
    sameDomain := fun _ _ => false,
    robotsAllowed := fun _ => true,
    excludePatterns := ["ex"],
    includePatterns := ["in"],
    sameDomainOnly := true,
    startUrl := "http://start.example",
    targetExts := [".pdf"] }

def c8State : CrawlState :=
  freshState "http://start.example" 2 true true [] ["ex"] [".pdf"]

theorem c8_witness :
    (match_patterns c8Policy.reSearch "http://x/ex-in" c8Policy.excludePatterns = true ∧
      classifyLink c8Policy "http://x/ex-in" = .skip "exclude-pattern" ∧
      (considerSkip c8Policy c8State "http://x/ex-in").skipped =
        c8State.skipped ++ [("http://x/ex-in", "exclude-pattern")]) ∧
    (match_patterns c8Policy.reSearch "http://y/in" c8Policy.excludePatterns = false ∧
      classifyLink c8Policy "http://y/in" = .skip "off-domain" ∧
      (considerSkip c8Policy c8State "http://y/in").skipped =
        c8State.skipped ++ [("http://y/in", "off-domain")]) := by
  have h1 := (c8_exclude_before_include_and_off_domain c8Policy c8State "http://x/ex-in").1
    (by decide)
  have h2 := (c8_exclude_before_include_and_off_domain c8Policy c8State "http://y/in").2
    (by decide) (Or.inr (by decide)) rfl rfl
  exact ⟨⟨by decide, h1⟩, ⟨by decide, h2⟩⟩

/-- C6 counterexample: starting a crawl with an empty target-extension set
does not fail. _prepare_extensions [] evaluates to the default singleton
.pdf instead of raising, and the fresh state construction accepts an empty
start URL, enqueueing it at depth 0 — no configuration rejection exists on
this path. -/
theorem c6_counterexample :
    prepare_extensions [] = [".pdf"] ∧
    (freshState "" 2 true true [] [] (prepare_extensions [])).frontier = [("", 0)] := by
  constructor
  · rfl
  · rfl

theorem insStrAsc_length (x : String) (l : List String) :
    (insStrAsc x l).length = l.length + 1 := by
  induction l with
  | nil => rfl
  | cons y ys ih =>
    by_cases h : x < y
    · simp [insStrAsc, h]
    · simp [insStrAsc, h, ih]

theorem sortStrAsc_length (xs : List String) : (sortStrAsc xs).length = xs.length := by
  suffices h : ∀ acc : List String,
      (List.foldl (fun acc x => insStrAsc x acc) acc xs).length = acc.length + xs.length by
    simpa [sortStrAsc] using h []
  induction xs with
  | nil => intro acc; simp
  | cons x xs ih =>
    intro acc
    simp only [List.foldl_cons, List.length_cons, ih, insStrAsc_length]
    omega

/-- C6 amended: configuration errors are not rejected before the crawl
starts: _prepare_extensions never fails and never returns an empty set — an
empty or all-blank extension list silently falls back to the default .pdf —
and a missing (empty) start URL is not validated, the fresh state simply
enqueues it. -/
theorem c6_amended_no_rejection :
    (∀ raw : List String, prepare_extensions raw ≠ []) ∧
    prepare_extensions [] = [".pdf"] ∧
    prepare_extensions ["", "   "] = [".pdf"] ∧
    (∀ (u : String) (d : Int) (r sd : Bool) (ip ep te : List String),
      (freshState u d r sd ip ep te).frontier = [(u, 0)]) := by
  refine ⟨?_, rfl, by decide, ?_⟩
  · intro raw hcontra
    have hlen := sortStrAsc_length (defaultIfEmpty (raw.foldl prepStep []))
    have hc2 : sortStrAsc (defaultIfEmpty (raw.foldl prepStep [])) = [] := hcontra
    rw [hc2] at hlen
    unfold defaultIfEmpty at hlen
    by_cases h : raw.foldl prepStep [] = []
    · rw [if_pos h] at hlen
      simp at hlen
    · rw [if_neg h] at hlen
      exact h (List.length_eq_zero.mp hlen.symm)
  · intro u d r sd ip ep te
    simp [freshState, CrawlState.enqueue]

def c1Url : String := "http://host/file.pdf"

def c1Workers : List SchedWorker := [⟨0, c1Url, 0⟩, ⟨1, c1Url, 0⟩]

def c1Start : DedupSt := ⟨[], [], [], [], 0, []⟩

/-- C1: the at-most-once download contract is broken by a check-then-act
race in _schedule_asset_download. Run sequentially (the first worker
finishes all its critical sections before the second starts), the model
submits one download and parks the second page as a waiter — the intended
behaviour, matching the integration test that asserts the PDF is
downloaded exactly once. But in the interleaving where both workers pass
the in-flight probe (lines 370 to 378) before either registers its future
in _asset_inflight (lines 383 to 384, a separate critical section entered
only after pool.submit on line 382), both workers submit a physical
download task for the same asset URL. -/
theorem c1_duplicate_download_race :
    ((schedRun c1Start c1Workers [0, 0, 0, 0, 1, 1]).1.submitted = [(0, c1Url)] ∧
      (((schedRun c1Start c1Workers [0, 0, 0, 0, 1, 1]).1.waiters.lookup c1Url).getD [])
        = [1]) ∧
    (schedRun c1Start c1Workers [0, 0, 1, 1, 0, 1]).1.submitted
      = [(0, c1Url), (1, c1Url)] := by
  refine ⟨⟨?_, ?_⟩, ?_⟩ <;> rfl

def c7FailCfg : RobotsCfg := ⟨true, fun _ => none⟩

/-- C7 counterexample: the robots cache is keyed by the full URL, not by
scheme+host. Two URLs that share scheme and host (and hence the same
robots.txt target) both miss the empty cache: the second call performs a
second fetch and the cache ends with two entries, where the claim promises
the second URL reuses the one cached policy of the host. -/
theorem c7_counterexample :
    robotsTarget "http://h/a".data = robotsTarget "http://h/b".data ∧
    (policy_for c7FailCfg [] "http://h/a".data).2.2 = true ∧
    (policy_for c7FailCfg (policy_for c7FailCfg [] "http://h/a".data).2.1
        "http://h/b".data).2.2 = true ∧
    (policy_for c7FailCfg (policy_for c7FailCfg [] "http://h/a".data).2.1
        "http://h/b".data).2.1.length = 2 := by
  refine ⟨?_, ?_, ?_, ?_⟩ <;> rfl

theorem lookup_filter_length (cache : RCache) (url : Str) (v : Option RPolicy)
    (h : cache.lookup url = some v) :
    (cache.filter fun kv => !(kv.1 == url)).length < cache.length := by
  induction cache with
  | nil => simp [List.lookup] at h
  | cons kv rest ih =>
    by_cases hk : kv.1 = url
    · have hb : (kv.1 == url) = true := beq_iff_eq.mpr hk
      simp only [List.filter_cons, hb, Bool.not_true, if_neg Bool.false_ne_true,
        List.length_cons]
      have := List.length_filter_le (fun kv : Str × Option RPolicy => !(kv.1 == url)) rest
      omega
    · have hb : (kv.1 == url) = false := beq_eq_false_iff_ne.mpr hk
      have hb2 : (url == kv.1) = false := beq_eq_false_iff_ne.mpr (Ne.symm hk)
      have h2 : rest.lookup url = some v := by
        simpa [List.lookup, hb2] using h
      have hlt := ih h2
      simp [List.filter_cons, hb]
      omega

/-- C7 amended: the robots oracle caches the policy keyed by the full URL
argument with an LRU bound of 32 entries, not unboundedly per scheme+host:
when disabled it always allows; on a policy-read failure it fails open and
allows; a repeated query with the same full URL is served from the cache
with no second fetch; and the cache never grows beyond 32 entries. -/
theorem c7_amended_cache_behaviour :
    (∀ (cfg : RobotsCfg) (cache : RCache) (url : Str),
      cfg.respect = false → (is_allowed cfg cache url).1 = true) ∧
    (∀ (cfg : RobotsCfg) (cache : RCache) (url : Str),
      cache.lookup url = none → cfg.fetchPolicy (robotsTarget url) = none →
      (is_allowed cfg cache url).1 = true) ∧
    (∀ (cfg : RobotsCfg) (cache : RCache) (url : Str) (v : Option RPolicy),
      cache.lookup url = some v → (policy_for cfg cache url).2.2 = false) ∧
    (∀ (cfg : RobotsCfg) (cache : RCache) (url : Str),
      cache.length ≤ 32 → (policy_for cfg cache url).2.1.length ≤ 32) := by
  refine ⟨?_, ?_, ?_, ?_⟩
  · intro cfg cache url h
    simp [is_allowed, h]
  · intro cfg cache url hmiss hfail
    by_cases hr : cfg.respect
    · simp [is_allowed, hr, policy_for, hmiss, hfail]
    · simp [is_allowed, hr]
  · intro cfg cache url v h
    simp [policy_for, h]
  · intro cfg cache url hlen
    unfold policy_for
    cases hl : cache.lookup url with
    | some v =>
      simp only [List.length_cons]
      have := lookup_filter_length cache url v hl
      omega
    | none =>
      simp only [List.length_take]
      omega

theorem c7_amended_witness :
    ((⟨false, fun _ => none⟩ : RobotsCfg).respect = false ∧
      (is_allowed ⟨false, fun _ => none⟩ [] "http://h/a".data).1 = true) ∧
    ((([] : RCache).lookup "http://h/a".data = none ∧
        c7FailCfg.fetchPolicy (robotsTarget "http://h/a".data) = none) ∧
      (is_allowed c7FailCfg [] "http://h/a".data).1 = true) ∧
    (([("http://h/a".data, (none : Option RPolicy))] : RCache).lookup "http://h/a".data
        = some none ∧
      (policy_for c7FailCfg [("http://h/a".data, none)] "http://h/a".data).2.2 = false) ∧
    (([] : RCache).length ≤ 32 ∧
      (policy_for c7FailCfg [] "http://h/a".data).2.1.length ≤ 32) := by
  refine ⟨⟨rfl, ?_⟩, ⟨⟨rfl, rfl⟩, ?_⟩, ⟨rfl, ?_⟩, ⟨by decide, ?_⟩⟩
  · exact c7_amended_cache_behaviour.1 ⟨false, fun _ => none⟩ [] "http://h/a".data rfl
  · exact c7_amended_cache_behaviour.2.1 c7FailCfg [] "http://h/a".data rfl rfl
  · exact c7_amended_cache_behaviour.2.2.1 c7FailCfg
      [("http://h/a".data, none)] "http://h/a".data none rfl
  · exact c7_amended_cache_behaviour.2.2.2 c7FailCfg [] "http://h/a".data (by decide)

theorem record_referrer_preserves (s : CrawlState) (url referrer : String) :
    (s.record_referrer url referrer).frontier = s.frontier ∧
    (s.record_referrer url referrer).visited = s.visited := by
  unfold CrawlState.record_referrer
  by_cases h : referrer = ""
  · simp [h]
  · rw [if_neg h]
    cases hml : List.lookup url s.pages with
    | none => simp [hml]
    | some p => simp [hml]

/-- C3: at the crawler level an enqueue attempt through _enqueue_page for a
URL that is already visited or already queued leaves the frontier (and the
queued set) unchanged: no URL in visited is re-enqueued and a duplicate
enqueue adds no second frontier entry. The hypothesis ties the queued set
to the frontier the way FileCrawler maintains _queued_pages: every URL in
the frontier is in the queued set. -/
theorem c3_enqueue_dup_noop (c : CrawlerQueue) (parent url : String) (depth : Int)
    (hq : ∀ u d, (u, d) ∈ c.st.frontier → u ∈ c.queued)
    (hdup : url ∈ c.st.visited ∨ ∃ d, (url, d) ∈ c.st.frontier) :
    (enqueue_page c parent url depth).st.frontier = c.st.frontier ∧
    (enqueue_page c parent url depth).queued = c.queued := by
  have hpres := record_referrer_preserves c.st url parent
  have hcond : url ∈ (c.st.record_referrer url parent).visited ∨ url ∈ c.queued := by
    rcases hdup with h | ⟨d, h⟩
    · exact Or.inl (hpres.2 ▸ h)
    · exact Or.inr (hq url d h)
  unfold enqueue_page
  rw [if_pos hcond]
  exact ⟨hpres.1, rfl⟩

def c3State : CrawlState :=
  { freshState "http://s/a" 2 true true [] [] [".pdf"] with visited := ["http://s/b"] }

theorem c3_witness :
    ((∀ u d, (u, d) ∈ (⟨c3State, ["http://s/a"]⟩ : CrawlerQueue).st.frontier →
        u ∈ (⟨c3State, ["http://s/a"]⟩ : CrawlerQueue).queued) ∧
      ("http://s/b" ∈ c3State.visited ∨ ∃ d, ("http://s/b", d) ∈ c3State.frontier)) ∧
    (enqueue_page ⟨c3State, ["http://s/a"]⟩ "http://s/a" "http://s/b" 1).st.frontier
        = c3State.frontier ∧
    (enqueue_page ⟨c3State, ["http://s/a"]⟩ "http://s/a" "http://s/b" 1).queued
        = ["http://s/a"] := by
  have hq : ∀ u d, (u, d) ∈ c3State.frontier → u ∈ ["http://s/a"] := by
    intro u d h
    have : (u, d) ∈ [("http://s/a", (0 : Int))] := h
    simp only [List.mem_singleton, Prod.mk.injEq] at this
    simp [this.1]
  have hdup : "http://s/b" ∈ c3State.visited ∨
      ∃ d, ("http://s/b", d) ∈ c3State.frontier := Or.inl (by decide)
  exact ⟨⟨hq, hdup⟩, c3_enqueue_dup_noop ⟨c3State, ["http://s/a"]⟩ "http://s/a" "http://s/b" 1
    hq hdup⟩

theorem backfill_mono (refs : List String) (cur : List String) (r : String)
    (h : r ∈ cur) : r ∈ backfill refs cur := by
  induction refs generalizing cur with
  | nil => exact h
  | cons a as ih =>
    unfold backfill
    by_cases ha : a ∈ cur
    · rw [if_pos ha]; exact ih cur h
    · rw [if_neg ha]; exact ih (cur ++ [a]) (List.mem_append_left _ h)

theorem backfill_mem_refs (refs : List String) (cur : List String) (r : String)
    (h : r ∈ refs) : r ∈ backfill refs cur := by
  induction refs generalizing cur with
  | nil => cases h
  | cons a as ih =>
    unfold backfill
    rcases List.mem_cons.mp h with rfl | hmem
    · by_cases ha : r ∈ cur
      · rw [if_pos ha]; exact backfill_mono as cur r ha
      · rw [if_neg ha]
        exact backfill_mono as (cur ++ [r]) r (List.mem_append_right _ (List.mem_singleton.mpr rfl))
    · split <;> exact ih _ hmem

theorem backfill_sources (refs : List String) (cur : List String) (r : String)
    (h : r ∈ backfill refs cur) : r ∈ cur ∨ r ∈ refs := by
  induction refs generalizing cur with
  | nil => exact Or.inl h
  | cons a as ih =>
    unfold backfill at h
    by_cases ha : a ∈ cur
    · rw [if_pos ha] at h
      rcases ih cur h with h2 | h2
      · exact Or.inl h2
      · exact Or.inr (List.mem_cons_of_mem a h2)
    · rw [if_neg ha] at h
      rcases ih (cur ++ [a]) h with h2 | h2
      · rcases List.mem_append.mp h2 with h3 | h3
        · exact Or.inl h3
        · exact Or.inr (List.mem_cons.mpr (Or.inl (List.mem_singleton.mp h3)))
      · exact Or.inr (List.mem_cons_of_mem a h2)

theorem backfill_nodup (refs : List String) (cur : List String) (h : cur.Nodup) :
    (backfill refs cur).Nodup := by
  induction refs generalizing cur with
  | nil => exact h
  | cons a as ih =>
    unfold backfill
    by_cases ha : a ∈ cur
    · rw [if_pos ha]; exact ih cur h
    · rw [if_neg ha]
      refine ih (cur ++ [a]) ?_
      simp [List.nodup_append, h, ha]

/-- C9: on a URL whose record already exists, CrawlState.page keeps the
record (same url, title, assets, errors, status) with its depth lowered to
the minimum of the stored and the supplied depth, and backfills into its
referrer list every referrer recorded in the referrer graph for that URL:
each graph referrer is present afterwards, nothing new beyond old referrers
and graph referrers appears, and no duplicates are introduced. -/
theorem c9_page_min_depth_and_backfill (s : CrawlState) (url : String) (depth : Int)
    (old : PageRecord) (h : s.pages.lookup url = some old) :
    ((s.page url depth).1.depth = min old.depth depth) ∧
    ((s.page url depth).1.url = old.url ∧ (s.page url depth).1.title = old.title ∧
      (s.page url depth).1.assets = old.assets ∧ (s.page url depth).1.errors = old.errors ∧
      (s.page url depth).1.last_status = old.last_status) ∧
    (∀ r ∈ (s.referrers.lookup url).getD [], r ∈ (s.page url depth).1.referrers) ∧
    (∀ r ∈ (s.page url depth).1.referrers,
      r ∈ old.referrers ∨ r ∈ (s.referrers.lookup url).getD []) ∧
    (old.referrers.Nodup → (s.page url depth).1.referrers.Nodup) := by
  unfold CrawlState.page
  rw [h]
  refine ⟨rfl, ⟨rfl, rfl, rfl, rfl, rfl⟩, ?_, ?_, ?_⟩
  · intro r hr
    exact backfill_mem_refs _ _ r hr
  · intro r hr
    exact backfill_sources _ _ r hr
  · intro hnd
    exact backfill_nodup _ _ hnd

def c9Page : PageRecord :=
  { url := "http://s/p", depth := 5, title := some "t", assets := [], errors := [],
    referrers := ["http://s/r1"], last_status := some "fetched" }

def c9State : CrawlState :=
  { freshState "http://s/p" 2 true true [] [] [".pdf"] with
      pages := [("http://s/p", c9Page)],
      referrers := [("http://s/p", ["http://s/r1", "http://s/r2"])] }

/-- C4: an empty snapshot and a snapshot that is not valid JSON (which
covers truncated files) both make CrawlState.load fail with a distinct
state-corruption error instead of returning any state, and the fallback to
a fresh crawl happens only in the caller: FileCrawler.__init__ catches the
load error and substitutes its freshly built state. -/
theorem c4_corrupt_load_fails :
    CrawlState.load .blank = .error .emptyFile ∧
    CrawlState.load .badJson = .error .invalidJson ∧
    (∀ fresh : CrawlState, initialState true true .blank fresh = fresh) ∧
    (∀ fresh : CrawlState, initialState true true .badJson fresh = fresh) := by
  refine ⟨rfl, rfl, fun fresh => rfl, fun fresh => rfl⟩

theorem pySet_mem (u : String) (xs : List String) : u ∈ pySet xs ↔ u ∈ xs := by
  induction xs with
  | nil => simp [pySet]
  | cons x xs ih =>
    simp only [pySet, List.mem_cons, List.mem_filter]
    constructor
    · rintro (rfl | ⟨h1, _⟩)
      · exact Or.inl rfl
      · exact Or.inr (ih.mp h1)
    · rintro (rfl | h)
      · exact Or.inl rfl
      · by_cases hx : u = x
        · exact Or.inl hx
        · exact Or.inr ⟨ih.mpr h, by simpa using hx⟩

theorem ebind_ok (a : α) (f : α → Except LoadErr β) :
    (Except.ok a >>= f : Except LoadErr β) = f a := rfl

theorem emap_ok (f : α → β) (a : α) :
    (f <$> Except.ok a : Except LoadErr β) = Except.ok (f a) := rfl

theorem mapM_roundtrip {α β : Type} (enc : α → β) (dec : β → Except LoadErr α)
    (h : ∀ a, dec (enc a) = .ok a) (xs : List α) :
    exMapM dec (xs.map enc) = .ok xs := by
  induction xs with
  | nil => rfl
  | cons x xs ih => simp [exMapM, h, ih, ebind_ok]

theorem decStrList_enc (xs : List String) :
    decStrList (.arr (xs.map .str)) = .ok xs := by
  simp only [decStrList, decList]
  exact mapM_roundtrip Json.str decStr (fun a => rfl) xs

theorem decStrPair_enc (a : String × String) : decStrPair (a.1, Json.str a.2) = .ok a := by
  cases a
  rfl

theorem decFrontierItem_enc (a : String × Int) :
    decFrontierItem (.arr [.str a.1, .num a.2]) = .ok a := by
  cases a
  rfl

theorem decSkipEntry_enc (a : String × String) :
    decSkipEntry (.obj [("url", .str a.1), ("reason", .str a.2)]) = .ok a := by
  cases a
  rfl

theorem decStrDict_enc (d : List (String × String)) :
    decStrDict (.obj (d.map fun kv => (kv.1, Json.str kv.2))) = .ok d := by
  simp only [decStrDict]
  exact mapM_roundtrip (fun kv => (kv.1, Json.str kv.2)) decStrPair decStrPair_enc d

theorem decAssets_enc (xs : List (List (String × String))) :
    decList decStrDict (.arr (xs.map encStrDict)) = .ok xs := by
  simp only [decList]
  refine mapM_roundtrip encStrDict decStrDict ?_ xs
  intro a
  simpa [encStrDict] using decStrDict_enc a

theorem decFrontier_enc (fr : List (String × Int)) :
    decList decFrontierItem (.arr (fr.map fun p => .arr [.str p.1, .num p.2])) = .ok fr := by
  simp only [decList]
  exact mapM_roundtrip (fun p => Json.arr [.str p.1, .num p.2]) decFrontierItem
    decFrontierItem_enc fr

theorem decSkipped_enc (sk : List (String × String)) :
    decList decSkipEntry
      (.arr (sk.map fun p => .obj [("url", .str p.1), ("reason", .str p.2)])) = .ok sk := by
  simp only [decList]
  exact mapM_roundtrip (fun p => Json.obj [("url", .str p.1), ("reason", .str p.2)])
    decSkipEntry decSkipEntry_enc sk

theorem decCache_enc (c : List (String × List (String × String))) :
    exMapM decCacheEntry (c.map fun kv => (kv.1, encStrDict kv.2)) = .ok c := by
  refine mapM_roundtrip (fun kv => (kv.1, encStrDict kv.2)) decCacheEntry ?_ c
  intro a
  simp [decCacheEntry, encStrDict, decStrDict_enc, ebind_ok]

theorem decRefs_enc (r : List (String × List String)) :
    exMapM decRefEntry (r.map fun kv => (kv.1, Json.arr (kv.2.map .str))) = .ok r := by
  refine mapM_roundtrip (fun kv => (kv.1, Json.arr (kv.2.map .str))) decRefEntry ?_ r
  intro a
  simp [decRefEntry, decStrList_enc, ebind_ok]

theorem decOptStr_jopt (t : Option String) : decOptStr (jopt t) = .ok t := by
  cases t <;> rfl

theorem assetsChain (xs : List (List (String × String))) :
    decList decStrDict
      (if (Json.arr (xs.map encStrDict)).truthy = true
       then Json.arr (xs.map encStrDict) else Json.arr []) = .ok xs := by
  cases xs with
  | nil => rfl
  | cons a as =>
    have h : (Json.arr ((a :: as).map encStrDict)).truthy = true := by
      simp [Json.truthy]
    rw [if_pos h]
    exact decAssets_enc (a :: as)

theorem refsChain (xs : List String) :
    decStrList
      (if (if (Json.arr (xs.map .str)).truthy = true
           then Json.arr (xs.map .str) else Json.null).truthy = true
       then (if (Json.arr (xs.map .str)).truthy = true
             then Json.arr (xs.map .str) else Json.null)
       else Json.arr []) = .ok xs := by
  cases xs with
  | nil => rfl
  | cons a as =>
    have h : (Json.arr ((a :: as).map .str)).truthy = true := by
      simp [Json.truthy]
    rw [if_pos h, if_pos h]
    exact decStrList_enc (a :: as)

theorem pagerecord_roundtrip (p : PageRecord) :
    PageRecord.from_dict p.to_dict = .ok p := by
  simp only [PageRecord.from_dict, PageRecord.to_dict, encAssets, jget, jgetD, jhas,
    List.lookup]
  simp only [Json.isNull, Bool.false_and, Bool.if_false_left]
  simp [decStr, ebind_ok, assetsChain, refsChain, decOptStr_jopt, decInt, emap_ok,
    decStrList_enc]

theorem objChain (L : List (String × Json)) :
    (if (Json.obj L).truthy = true then Json.obj L else Json.obj []) = Json.obj L := by
  cases L <;> simp [Json.truthy]

theorem decPageEntry_enc (a : String × PageRecord) :
    decPageEntry (a.1, a.2.to_dict) = .ok a := by
  cases a
  simp [decPageEntry, pagerecord_roundtrip, ebind_ok]

theorem decPages_enc (ps : List (String × PageRecord)) :
    exMapM decPageEntry (ps.map fun kv => (kv.1, kv.2.to_dict)) = .ok ps :=
  mapM_roundtrip (fun kv => (kv.1, kv.2.to_dict)) decPageEntry decPageEntry_enc ps

/-- C2: saving a CrawlState and loading it back succeeds and yields a state
with the same set of visited URLs, the identical frontier (order
preserved), and the identical asset manifest — the resume contract. The
file content is the JSON value written by to_dict (json.dumps followed by
json.loads is the identity on values). -/
theorem c2_snapshot_roundtrip (s : CrawlState) :
    ∃ s2 : CrawlState,
      CrawlState.load (.content s.to_dict) = .ok s2 ∧
      (∀ u, u ∈ s2.visited ↔ u ∈ s.visited) ∧
      s2.frontier = s.frontier ∧
      s2.asset_manifest = s.asset_manifest := by
  refine ⟨{ s with visited := pySet s.visited }, ?_, ?_, rfl, rfl⟩
  · simp only [CrawlState.load, CrawlState.to_dict, jget, jgetD, jhas, List.lookup,
      encCache]
    simp [objChain, decPages_enc, decCache_enc, decRefs_enc, decStr, decInt,
      decBool, decStrList_enc, decFrontier_enc, decSkipped_enc, decOptStr_jopt, ebind_ok]
  · intro u
    exact pySet_mem u s.visited

theorem c9_witness :
    c9State.pages.lookup "http://s/p" = some c9Page ∧
    ((c9State.page "http://s/p" 3).1.depth = min c9Page.depth 3 ∧
      ((c9State.page "http://s/p" 3).1.url = c9Page.url ∧
        (c9State.page "http://s/p" 3).1.title = c9Page.title ∧
        (c9State.page "http://s/p" 3).1.assets = c9Page.assets ∧
        (c9State.page "http://s/p" 3).1.errors = c9Page.errors ∧
        (c9State.page "http://s/p" 3).1.last_status = c9Page.last_status) ∧
      (∀ r ∈ (c9State.referrers.lookup "http://s/p").getD [],
        r ∈ (c9State.page "http://s/p" 3).1.referrers) ∧
      (∀ r ∈ (c9State.page "http://s/p" 3).1.referrers,
        r ∈ c9Page.referrers ∨ r ∈ (c9State.referrers.lookup "http://s/p").getD []) ∧
      (c9Page.referrers.Nodup → (c9State.page "http://s/p" 3).1.referrers.Nodup)) :=
  ⟨by decide, c9_page_min_depth_and_backfill c9State "http://s/p" 3 c9Page (by decide)⟩

/-! ### C5: URL normalization -/

/-- C5 counterexample: normalization is not idempotent. The trailing-slash
strip in normalize_url is applied to the whole URL string, so a canonical
URL whose query ends in a slash loses that slash, and re-normalizing the
result then drops the now-empty query marker: normalize yields
http://a/b? for href http://a/b?/, but normalizing http://a/b? again
yields http://a/b, a different URL. -/
theorem c5_counterexample :
    normalize_url "https://x".data "http://a/b?/".data = some "http://a/b?".data ∧
    normalize_url "http://a/b?".data "http://a/b?".data = some "http://a/b".data ∧
    "http://a/b".data ≠ "http://a/b?".data := by
  exact ⟨by decide, by decide, by decide⟩

theorem splitFirst_parts (c : Char) (s : Str) :
    ∀ a b, Url.splitFirst c s = some (a, b) → s = a ++ c :: b ∧ c ∉ a := by
  induction s with
  | nil => intro a b h; simp [Url.splitFirst] at h
  | cons x xs ih =>
    intro a b h
    by_cases hx : x = c
    · subst hx
      simp [Url.splitFirst] at h
      rcases h with ⟨rfl, rfl⟩
      exact ⟨rfl, by simp⟩
    · have hbx : (x == c) = false := beq_eq_false_iff_ne.mpr hx
      simp only [Url.splitFirst, hbx] at h
      cases hsf : Url.splitFirst c xs with
      | none => rw [hsf] at h; simp at h
      | some p =>
        rcases p with ⟨a2, b2⟩
        rw [hsf] at h
        have h2 : some (x :: a2, b2) = some (a, b) := h
        injection h2 with h3
        obtain ⟨ha, hb⟩ := Prod.ext_iff.mp h3
        dsimp only at ha hb
        subst ha
        subst hb
        obtain ⟨hs2, hnot⟩ := ih a2 b2 hsf
        constructor
        · simp [hs2]
        · simp only [List.mem_cons, not_or]
          exact ⟨Ne.symm hx, hnot⟩

theorem splitFirst_none_not_mem (c : Char) (s : Str)
    (h : Url.splitFirst c s = none) : c ∉ s := by
  induction s with
  | nil => simp
  | cons x xs ih =>
    by_cases hx : x = c
    · subst hx; simp [Url.splitFirst] at h
    · have hbx : (x == c) = false := beq_eq_false_iff_ne.mpr hx
      simp only [Url.splitFirst, hbx] at h
      cases hsf : Url.splitFirst c xs with
      | none =>
        simp only [List.mem_cons, not_or]
        exact ⟨fun hc => hx hc.symm, ih hsf⟩
      | some p => rw [hsf] at h; simp at h

theorem splitFragment_no_hash (s : Str) : '#' ∉ (Url.splitFragment s).1 := by
  unfold Url.splitFragment
  cases hsf : Url.splitFirst '#' s with
  | none => exact splitFirst_none_not_mem '#' s hsf
  | some p =>
    rcases p with ⟨a, b⟩
    exact (splitFirst_parts '#' s a b hsf).2

theorem splitQuery_mem (s : Str) (x : Char)
    (h : x ∈ (Url.splitQuery s).1 ∨ x ∈ (Url.splitQuery s).2) : x ∈ s := by
  unfold Url.splitQuery at h
  cases hsf : Url.splitFirst '?' s with
  | none =>
    rw [hsf] at h
    rcases h with h | h
    · exact h
    · simp at h
  | some p =>
    rcases p with ⟨a, b⟩
    rw [hsf] at h
    obtain ⟨hs2, _⟩ := splitFirst_parts '?' s a b hsf
    rw [hs2]
    rcases h with h | h
    · exact List.mem_append_left _ h
    · exact List.mem_append_right _ (List.mem_cons_of_mem _ h)

theorem splitNetloc_no_delim (s : Str) (x : Char) (h : x ∈ (Url.splitNetloc s).1) :
    Url.netlocDelim x = false := by
  unfold Url.splitNetloc at h
  have := List.mem_takeWhile_imp h
  simpa using this

/-- The netloc, path and query of a parse contain no hash character, for
any default scheme (the default only ever lands in the scheme slot). -/
theorem urlsplit_no_hash_npq (url d : Str) :
    '#' ∉ (Url.urlsplit url d).netloc ∧ '#' ∉ (Url.urlsplit url d).path ∧
    '#' ∉ (Url.urlsplit url d).query := by
  unfold Url.urlsplit
  dsimp only
  refine ⟨?_, ?_, ?_⟩
  · split
    · intro hmem
      have := splitNetloc_no_delim _ _ hmem
      exact absurd this (by decide)
    · exact List.not_mem_nil _
  · intro hmem
    exact splitFragment_no_hash _ (splitQuery_mem _ _ (Or.inl hmem))
  · intro hmem
    exact splitFragment_no_hash _ (splitQuery_mem _ _ (Or.inr hmem))

theorem urlunsplit_mem (r : Url.SplitResult) (x : Char) (h : x ∈ Url.urlunsplit r) :
    x ∈ r.scheme ∨ x ∈ r.netloc ∨ x ∈ r.path ∨ x ∈ r.query ∨ x ∈ r.fragment ∨
    x = ':' ∨ x = '/' ∨ x = '?' ∨ x = '#' ∧ r.fragment ≠ [] := by
  rcases r with ⟨rs, rn, rp, rq, rf⟩
  simp only [Url.urlunsplit] at h
  dsimp only at h ⊢
  repeat' split at h
  all_goals try simp only [List.mem_append, List.mem_cons, List.mem_singleton] at h
  all_goals tauto

theorem rstripSlash_subset (s : Str) (x : Char) (h : x ∈ rstripSlash s) : x ∈ s := by
  unfold rstripSlash at h
  have h1 := List.mem_reverse.mp h
  have h2 := (List.dropWhile_sublist (l := s.reverse) (p := fun c => c == '/')).subset h1
  exact List.mem_reverse.mp h2

theorem normalize_no_hash (base href u : Str)
    (h : normalize_url base href = some u) : '#' ∉ u := by
  unfold normalize_url at h
  split at h
  · simp at h
  · dsimp only at h
    split at h
    · simp at h
    · split at h
      · simp at h
      · rename_i hsch
        injection h with h
        subst h
        have hs : (Url.urlsplit (Url.urljoin base (pyStrip href)) []).scheme = "http".data ∨
            (Url.urlsplit (Url.urljoin base (pyStrip href)) []).scheme = "https".data := by
          rcases not_and_or.mp hsch with h1 | h1
          · exact Or.inl (not_not.mp h1)
          · exact Or.inr (not_not.mp h1)
        have hnohash :
            '#' ∉ Url.urlunsplit
              { Url.urlsplit (Url.urljoin base (pyStrip href)) [] with fragment := [] } := by
          intro hx
          have hm := urlunsplit_mem _ '#' hx
          obtain ⟨hn, hpth, hq⟩ := urlsplit_no_hash_npq (Url.urljoin base (pyStrip href)) []
          dsimp only at hm
          rcases hm with hm | hm | hm | hm | hm | hm | hm | hm | hm
          · rcases hs with h1 | h1 <;> rw [h1] at hm <;> exact absurd hm (by decide)
          · exact hn hm
          · exact hpth hm
          · exact hq hm
          · simp at hm
          · exact absurd hm (by decide)
          · exact absurd hm (by decide)
          · exact absurd hm (by decide)
          · exact absurd hm.2 (by simp)
        split
        · intro hx
          exact hnohash (rstripSlash_subset _ _ hx)
        · exact hnohash

theorem normalize_pseudo_scheme (base href : Str)
    (h : startsW "mailto:".data (pyStrip href) = true ∨
         startsW "javascript:".data (pyStrip href) = true) :
    normalize_url base href = none := by
  unfold normalize_url
  split
  · rfl
  · have hcond : (startsW "mailto:".data (pyStrip href) ||
        startsW "javascript:".data (pyStrip href)) = true := by
      rcases h with h | h <;> simp [h]
    dsimp only
    rw [if_pos hcond]

theorem urlsplit_default (url d : Str) (h : (Url.urlsplit url []).scheme ≠ []) :
    Url.urlsplit url d = Url.urlsplit url [] := by
  unfold Url.urlsplit at h ⊢
  dsimp only at h ⊢
  cases hs : Url.schemeSplit (Url.scrub (Url.lstripC0 url)) with
  | some p => rfl
  | none =>
    rw [hs] at h
    exact absurd rfl h

theorem urlunsplit_starts (r : Url.SplitResult)
    (h : r.scheme = "http".data ∨ r.scheme = "https".data) :
    ∃ t, Url.urlunsplit r = 'h' :: t := by
  rcases r with ⟨rs, rn, rp, rq, rf⟩
  dsimp only at h
  rcases h with h | h
  · subst h
    have hs : ("http".data : Str) ≠ [] := by decide
    simp only [Url.urlunsplit]
    rw [if_pos hs]
    simp only [List.cons_append]
    split <;> split <;> exact ⟨_, rfl⟩
  · subst h
    have hs : ("https".data : Str) ≠ [] := by decide
    simp only [Url.urlunsplit]
    rw [if_pos hs]
    simp only [List.cons_append]
    split <;> split <;> exact ⟨_, rfl⟩

theorem normalize_idempotent_stable (u : Str)
    (h1 : pyStrip u = u)
    (h5 : (Url.urlsplit u []).netloc ≠ [])
    (h7 : (Url.urlsplit u []).fragment = [])
    (h6 : (Url.urlsplit u []).scheme = "http".data ∨
          (Url.urlsplit u []).scheme = "https".data)
    (h3 : Url.urlunsplit (Url.urlsplit u []) = u)
    (h4 : (Url.urlsplit u []).path = ['/'] ∨ rstripSlash u = u) :
    normalize_url u u = some u := by
  have hne : u ≠ [] := by
    intro h0
    rw [h0] at h5
    exact h5 (by decide)
  obtain ⟨t, hu⟩ : ∃ t, u = 'h' :: t := by
    obtain ⟨t, ht⟩ := urlunsplit_starts (Url.urlsplit u []) h6
    exact ⟨t, by rw [← h3, ht]⟩
  have hdne : (Url.urlsplit u []).scheme ≠ [] := by
    rcases h6 with h6 | h6 <;> rw [h6] <;> decide
  have hdflt := urlsplit_default u (Url.urlsplit u []).scheme hdne
  have hjoin : Url.urljoin u u = u := by
    unfold Url.urljoin
    rw [if_neg hne, if_neg hne]
    dsimp only
    rw [hdflt]
    have hc1 : ¬((Url.urlsplit u []).scheme ≠ (Url.urlsplit u []).scheme ∨
        (Url.urlsplit u []).scheme ∉ Url.usesRelative) := by
      rcases h6 with h6 | h6 <;> rw [h6] <;> decide
    rw [if_neg hc1]
    have hc2 : (Url.urlsplit u []).scheme ∈ Url.usesNetloc ∧
        (Url.urlsplit u []).netloc ≠ [] := by
      refine ⟨?_, h5⟩
      rcases h6 with h6 | h6 <;> rw [h6] <;> decide
    rw [if_pos hc2]
    exact h3
  have hsw : ¬((startsW "mailto:".data u || startsW "javascript:".data u) = true) := by
    rw [hu]
    have e1 : startsW "mailto:".data ('h' :: t) = false := rfl
    have e2 : startsW "javascript:".data ('h' :: t) = false := rfl
    rw [e1, e2]
    simp
  rcases hsp : Url.urlsplit u [] with ⟨ps, pn, pp, pq, pf⟩
  rw [hsp] at h3 h4 h6 h7
  dsimp only at h3 h4 h6 h7
  subst h7
  unfold normalize_url
  rw [if_neg hne]
  dsimp only
  rw [h1, if_neg hsw, hjoin, hsp]
  have hc3 : ¬((Url.SplitResult.mk ps pn pp pq []).scheme ≠ "http".data ∧
      (Url.SplitResult.mk ps pn pp pq []).scheme ≠ "https".data) := by
    dsimp only
    rcases h6 with h6 | h6 <;> rw [h6] <;> decide
  rw [if_neg hc3]
  dsimp only
  rw [h3]
  rcases h4 with h4 | h4
  · rw [h4]
    rw [if_neg (by simp)]
  · split
    · rw [h4]
    · rfl

/-- C5 amended: normalization is idempotent on the canonical URLs that are
stable under a reparse — a canonical URL u that is whitespace-stripped, has
a nonempty host and no fragment, parses back to an http(s) scheme,
re-serializes to itself, and carries no trailing slash outside a root path,
normalizes to itself. (The unrestricted claim fails: the trailing-slash
strip acts on the whole string, so a query ending in a slash — see the
counterexample — and, similarly, trailing whitespace or an empty host with
dot segments escape idempotence.) Fragments are always stripped from every
canonical result, and mailto: or javascript: hrefs always yield no
result. -/
theorem c5_amended_normalization :
    (∀ base href u, normalize_url base href = some u →
      pyStrip u = u →
      (Url.urlsplit u []).netloc ≠ [] →
      (Url.urlsplit u []).fragment = [] →
      ((Url.urlsplit u []).scheme = "http".data ∨
        (Url.urlsplit u []).scheme = "https".data) →
      Url.urlunsplit (Url.urlsplit u []) = u →
      ((Url.urlsplit u []).path = ['/'] ∨ rstripSlash u = u) →
      normalize_url u u = some u) ∧
    (∀ base href u, normalize_url base href = some u → '#' ∉ u) ∧
    (∀ base href, (startsW "mailto:".data (pyStrip href) = true ∨
        startsW "javascript:".data (pyStrip href) = true) →
      normalize_url base href = none) :=
  ⟨fun _ _ u _ h1 h5 h7 h6 h3 h4 => normalize_idempotent_stable u h1 h5 h7 h6 h3 h4,
   normalize_no_hash,
   normalize_pseudo_scheme⟩

theorem c5_amended_witness :
    (normalize_url "http://e.com".data "a".data = some "http://e.com/a".data ∧
      pyStrip "http://e.com/a".data = "http://e.com/a".data ∧
      (Url.urlsplit "http://e.com/a".data []).netloc ≠ [] ∧
      (Url.urlsplit "http://e.com/a".data []).fragment = [] ∧
      ((Url.urlsplit "http://e.com/a".data []).scheme = "http".data ∨
        (Url.urlsplit "http://e.com/a".data []).scheme = "https".data) ∧
      Url.urlunsplit (Url.urlsplit "http://e.com/a".data []) = "http://e.com/a".data ∧
      ((Url.urlsplit "http://e.com/a".data []).path = ['/'] ∨
        rstripSlash "http://e.com/a".data = "http://e.com/a".data) ∧
      normalize_url "http://e.com/a".data "http://e.com/a".data
        = some "http://e.com/a".data) ∧
    (normalize_url "https://example.com/p".data "f.pdf#sec".data
        = some "https://example.com/f.pdf".data ∧
      '#' ∉ "https://example.com/f.pdf".data) ∧
    (startsW "mailto:".data (pyStrip "mailto:test@example.com".data) = true ∧
      normalize_url "https://example.com".data "mailto:test@example.com".data = none) := by
  refine ⟨⟨by decide, by decide, by decide, by decide, by decide, by decide, by decide, ?_⟩,
    ⟨by decide, ?_⟩, ⟨by decide, ?_⟩⟩
  · exact c5_amended_normalization.1 "http://e.com".data "a".data "http://e.com/a".data
      (by decide) (by decide) (by decide) (by decide) (by decide) (by decide) (by decide)
  · exact c5_amended_normalization.2.1 "https://example.com/p".data "f.pdf#sec".data
      "https://example.com/f.pdf".data (by decide)
  · exact c5_amended_normalization.2.2 "https://example.com".data
      "mailto:test@example.com".data (Or.inl (by decide))

end Crawrels
